import Mathlib

/-!
Verification development for the request-authentication core of this
repository: the expiring cache (local and shared backends), the nonce-based
replay guard, and the HTTP request verifier middleware.

Modelling conventions, shared by all definitions below:
* JS strings are modelled as Lean strings (sequences of Unicode scalar
  values); byte-level operations go through an explicit UTF-8 encoder.
* Machine time is modelled as integer milliseconds; JS numbers appearing in
  TTL arithmetic are modelled as rationals, with Math.round made explicit.
* Asynchronous methods are modelled as pure state-passing functions; thrown
  exceptions are modelled with Except.
* External collaborators (SHA-256, RSA verification, Date parsing, JSON
  parsing, the merchant-key lookup and the shared Redis store) are opaque
  parameters or spec-modelled definitions, marked as such.
-/

/-! ## JS string primitives -/

/-- ASCII lower-casing of a character, as String.prototype.toLowerCase acts
on the ASCII range (the header names and verbs the verifier lower-cases are
validated against an ASCII token set). -/
def jsLowerChar (c : Char) : Char :=
  if 'A' ≤ c ∧ c ≤ 'Z' then Char.ofNat (c.toNat + 32) else c

/-- ASCII upper-casing of a character (String.prototype.toUpperCase on the
ASCII range). -/
def jsUpperChar (c : Char) : Char :=
  if 'a' ≤ c ∧ c ≤ 'z' then Char.ofNat (c.toNat - 32) else c

def jsToLower (s : String) : String := ⟨s.data.map jsLowerChar⟩

def jsToUpper (s : String) : String := ⟨s.data.map jsUpperChar⟩

/-- Whitespace in the sense of String.prototype.trim and of the \s class
used by the authorization-header split (space, tab, line terminators, NBSP,
BOM). -/
def jsIsSpace (c : Char) : Bool :=
  c = ' ' || c = '\t' || c = '\n' || c = '\r' ||
  c.toNat = 11 || c.toNat = 12 || c.toNat = 0xA0 || c.toNat = 0xFEFF

def jsTrim (s : String) : String :=
  ⟨((s.data.dropWhile jsIsSpace).reverse.dropWhile jsIsSpace).reverse⟩

/-- str.split(sep) for a one-character separator, as in JS: splitting the
empty string yields one empty field. -/
def splitOnChar (sep : Char) : List Char → List (List Char)
  | [] => [[]]
  | c :: rest =>
    if c = sep then [] :: splitOnChar sep rest
    else
      match splitOnChar sep rest with
      | [] => [[c]]
      | g :: gs => (c :: g) :: gs

def jsSplitOn (sep : Char) (s : String) : List String :=
  (splitOnChar sep s.data).map (fun l => ⟨l⟩)

/-- str.split(/p(.+)$/, 2): split at the leftmost character satisfying p
that is followed by at least one character; absent such a character the
split fails (the source then sees an undefined second field). -/
def splitFirstWithRest (p : Char → Bool) : List Char → Option (List Char × List Char)
  | [] => none
  | c :: rest =>
    if p c then (if rest.isEmpty then none else some ([], rest))
    else (splitFirstWithRest p rest).map (fun x => (c :: x.1, x.2))

def jsSplit2 (p : Char → Bool) (s : String) : Option (String × String) :=
  (splitFirstWithRest p s.data).map (fun x => (⟨x.1⟩, ⟨x.2⟩))

def joinSep (sep : String) : List String → String
  | [] => ""
  | [x] => x
  | x :: y :: xs => x ++ sep ++ joinSep sep (y :: xs)

/-- JS string prefix test (String.prototype.startsWith). -/
def strStartsWith (s p : String) : Bool := p.data.isPrefixOf s.data

/-- Math.round on a JS number: round half toward positive infinity. -/
def jsRound (q : ℚ) : Int := ⌊q + 1/2⌋

/-! ## JS object as an association list

A JS object with string keys, as used for the caches' backing store and the
collected-header record: insertion preserves the position of an existing
key, deletion removes it. Keys are unique by construction. -/

def objGet (o : List (String × α)) (k : String) : Option α :=
  (o.find? (fun e => e.1 = k)).map (fun e => e.2)

def objSet : List (String × α) → String → α → List (String × α)
  | [], k, v => [(k, v)]
  | e :: rest, k, v => if e.1 = k then (k, v) :: rest else e :: objSet rest k v

def objDel (o : List (String × α)) (k : String) : List (String × α) :=
  o.filter (fun e => ¬ e.1 = k)

/-! ## UTF-8 and percent-encoding (encodeURIComponent) -/

/-- UTF-8 encoding of one Unicode scalar value, as bytes (Nat < 256). -/
def charUtf8 (c : Char) : List Nat :=
  if c.toNat < 0x80 then [c.toNat]
  else if c.toNat < 0x800 then [0xC0 + c.toNat / 64, 0x80 + c.toNat % 64]
  else if c.toNat < 0x10000 then
    [0xE0 + c.toNat / 4096, 0x80 + c.toNat / 64 % 64, 0x80 + c.toNat % 64]
  else
    [0xF0 + c.toNat / 262144, 0x80 + c.toNat / 4096 % 64, 0x80 + c.toNat / 64 % 64,
     0x80 + c.toNat % 64]

def utf8Bytes : List Char → List Nat
  | [] => []
  | c :: cs => charUtf8 c ++ utf8Bytes cs

/-- The characters encodeURIComponent leaves unescaped:
A-Z a-z 0-9 - _ . ! ~ * quote ( ). -/
def uriUnreserved (b : Nat) : Bool :=
  (65 ≤ b && b ≤ 90) || (97 ≤ b && b ≤ 122) || (48 ≤ b && b ≤ 57) ||
  b == 45 || b == 95 || b == 46 || b == 33 || b == 126 || b == 42 ||
  b == 39 || b == 40 || b == 41

def hexDigitUpper (n : Nat) : Char :=
  if n < 10 then Char.ofNat (48 + n) else Char.ofNat (55 + n)

def hexDigitLower (n : Nat) : Char :=
  if n < 10 then Char.ofNat (48 + n) else Char.ofNat (87 + n)

/-- Percent-encoding of one byte, as encodeURIComponent renders it
(uppercase hex). -/
def encByte (b : Nat) : List Char :=
  if uriUnreserved b then [Char.ofNat b] else ['%', hexDigitUpper (b / 16), hexDigitUpper (b % 16)]

def encBytes : List Nat → List Char
  | [] => []
  | b :: bs => encByte b ++ encBytes bs

/-- encodeURIComponent: percent-encode the UTF-8 bytes of every character
outside the unreserved set. -/
def encodeURIComponent (s : String) : String := ⟨encBytes (utf8Bytes s.data)⟩

/-- fixedEncodeURIComponent from the verifier source: additionally escapes
! * ( ) and the single quote, using lowercase hex for those five characters
(the replacement runs charCodeAt(0).toString(16)). -/
def fixedEncByte (b : Nat) : List Char :=
  if b == 33 || b == 39 || b == 40 || b == 41 || b == 42 then
    ['%', hexDigitLower (b / 16), hexDigitLower (b % 16)]
  else encByte b

def fixedEncBytes : List Nat → List Char
  | [] => []
  | b :: bs => fixedEncByte b ++ fixedEncBytes bs

def fixedEncodeURIComponent (s : String) : String := ⟨fixedEncBytes (utf8Bytes s.data)⟩

/-! ## Expiring cache, local backend (ConfigCache Local)

State: key to (absolute expiration instant in ms, value). The constructor
TTL is carried as ttlMs = Math.round(options.ttl * 1000). The set value is
an Option, none standing for the JS undefined sentinel the source rejects. -/

structure CacheEntry (α : Type) where
  exp : Int
  value : α
deriving DecidableEq, Repr

abbrev LocalStore (α : Type) := List (String × CacheEntry α)

structure ConfigCacheAddOptions where
  ttl : ℚ
  absolute : Bool
deriving DecidableEq, Repr

/-- The per-entry expiration instant the local backend computes in set. -/
def localComputedExp (ttlMs : Int) (now : Int) (opts : Option ConfigCacheAddOptions) : Int :=
  match opts with
  | none => ttlMs + now
  | some o => if o.absolute then jsRound (o.ttl * 1000) else jsRound (o.ttl * 1000) + now

def ConfigCacheLocal.setEntry (ttlMs : Int) (σ : LocalStore α) (now : Int) (k : String)
    (v : α) (opts : Option ConfigCacheAddOptions) : LocalStore α :=
  objSet σ k ⟨localComputedExp ttlMs now opts, v⟩

def ConfigCacheLocal.set (ttlMs : Int) (σ : LocalStore α) (now : Int) (k : String)
    (v : Option α) (opts : Option ConfigCacheAddOptions) : Except String (LocalStore α) :=
  match v with
  | none => .error "ConfigCache::add() requires argument 2 to be a non-Undefined value."
  | some v => .ok (ConfigCacheLocal.setEntry ttlMs σ now k v opts)

/-- Local-backend get: returns the stored value whenever the key is
present. Faithful to the source, which does not consult the entry's
expiration instant; only the background purge removes entries. -/
def ConfigCacheLocal.get (σ : LocalStore α) (k : String) : Option α :=
  (objGet σ k).map (fun e => e.value)

/-- Observation of the local cache at wall-clock instant now. The source's
get ignores the clock, which this definition makes explicit. -/
def ConfigCacheLocal.getAt (σ : LocalStore α) (_now : Int) (k : String) : Option α :=
  ConfigCacheLocal.get σ k

def ConfigCacheLocal.del (σ : LocalStore α) (k : String) : LocalStore α := objDel σ k

/-- The background waiter's purge: drops every entry whose expiration
instant is at or before now. -/
def ConfigCacheLocal.purge (σ : LocalStore α) (now : Int) : LocalStore α :=
  σ.filter (fun e => e.2.exp > now)

/-- The background waiter's next sleep interval: minimum over entries of
max(exp - now + 1000, 0), starting from 0x7fffffff. -/
def ConfigCacheLocal.interval (σ : LocalStore α) (now : Int) : Int :=
  σ.foldl (fun acc e => min acc (max (e.2.exp - now + 1000) 0)) 0x7fffffff

/-! ## Expiring cache, shared backend (ConfigCache Remote)

The backing store is external. Modelled from the spec: a generic expiring
key/value store (Redis) in which setex stores a value for a whole number of
seconds and get returns absent once the expiration instant has been
reached, and never returns a value past it. Store keys map to the
serialized value and the absolute expiration instant in ms. -/

abbrev RedisStore := List (String × (String × ℚ))

/-- Modelled from the spec: the external store's setex, expiring the entry
ttl seconds after now. -/
def redisSetex (ρ : RedisStore) (now : Int) (k v : String) (ttlSec : ℚ) : RedisStore :=
  objSet ρ k (v, (now : ℚ) + ttlSec * 1000)

/-- Modelled from the spec: the external store's get; an entry is gone once
its expiration instant is reached. -/
def redisGet (ρ : RedisStore) (now : Int) (k : String) : Option String :=
  match objGet ρ k with
  | none => none
  | some e => if (now : ℚ) < e.2 then some e.1 else none

/-- The namespaced store key: ConfigCache/project/scope/key with each
variable part URL-encoded. -/
def remoteKey (project scope k : String) : String :=
  joinSep "/" ["ConfigCache", encodeURIComponent project, encodeURIComponent scope, ""] ++
    encodeURIComponent k

/-- The expiration the remote backend computes in set, in seconds: default
TTL when no options; Math.round(ttl - now/1000) for an absolute instant;
Math.round(ttl) for a relative TTL. -/
def remoteComputedExp (ttlDefault : ℚ) (now : Int) (opts : Option ConfigCacheAddOptions) : ℚ :=
  match opts with
  | none => ttlDefault
  | some o => if o.absolute then (jsRound (o.ttl - (now : ℚ) / 1000) : ℚ) else (jsRound o.ttl : ℚ)

/-- Remote-backend set. A non-positive computed expiration returns without
touching the store; an I/O failure against the store is swallowed (logged)
and leaves the caller successful. -/
def ConfigCacheRemote.set (ttlDefault : ℚ) (project scope : String) (ser : α → String)
    (ρ : RedisStore) (now : Int) (k : String) (v : Option α)
    (opts : Option ConfigCacheAddOptions) (ioFail : Bool) : Except String RedisStore :=
  match v with
  | none => .error "ConfigCache::add() requires argument 2 to be a non-Undefined value."
  | some v =>
    let exp := remoteComputedExp ttlDefault now opts
    if exp ≤ 0 then .ok ρ
    else if ioFail then .ok ρ
    else .ok (redisSetex ρ now (remoteKey project scope k) (ser v) exp)

/-- Remote-backend get: store miss, store expiry and I/O failure all
degrade to absent. -/
def ConfigCacheRemote.get (deser : String → α) (project scope : String)
    (ρ : RedisStore) (now : Int) (k : String) (ioFail : Bool) : Option α :=
  if ioFail then none
  else (redisGet ρ now (remoteKey project scope k)).map deser

/-! ## Replay guard (NonceController) -/

/-- The composite cache key for a (service, nonce) pair. -/
def nonceToken (service nonce : String) : String :=
  encodeURIComponent service ++ "/" ++ encodeURIComponent nonce

/-- The expiring-cache operations the replay guard is constructed over
(values are the null placeholder element, modelled as Unit). -/
structure CacheIface (σ : Type) where
  get : σ → String → Option Unit
  set : σ → String → σ

/-- NonceController.add: for a non-idempotent request an existing (service,
nonce) entry is a conflict (false, cache untouched); otherwise the entry is
stored (refreshed) with the cache's retention period and the pair is
accepted. -/
def NonceController.add (C : CacheIface σ) (service nonce : String)
    (idempotent : Bool) (st : σ) : Bool × σ :=
  let token := nonceToken service nonce
  if ¬ idempotent ∧ (C.get st token).isSome then (false, st)
  else (true, C.set st token)

/-- The replay guard over the local cache backend with default TTL ttlMs:
get ignores expiry (as the local backend does) and set stores for one
default retention period from now. -/
def localNonceIface (ttlMs now : Int) : CacheIface (LocalStore Unit) where
  get := fun σ k => ConfigCacheLocal.get σ k
  set := fun σ k => ConfigCacheLocal.setEntry ttlMs σ now k () none

/-! ## Dates

A JS Date instant as the verifier observes it: the UTC calendar fields the
serializers read (month 0-based, as getUTCMonth) and the epoch instant in
ms that getTime returns. Date-string parsing (the Date constructor) is an
opaque parameter of the verifier. -/

structure JsDate where
  year : Nat
  month : Nat
  day : Nat
  hour : Nat
  minute : Nat
  second : Nat
  ms : Nat
  timeMs : Int
deriving DecidableEq, Repr

/-- The serializers' pad: two digits below ten, the plain decimal otherwise. -/
def jsPad (n : Nat) : String := if n < 10 then "0" ++ toString n else toString n

/-- getIso8601Time from the verifier source: the basic UTC form
year-MM-ddTHH:mm:ssZ. -/
def getIso8601Time (d : JsDate) : String :=
  toString d.year ++ "-" ++ jsPad (d.month + 1) ++ "-" ++ jsPad d.day ++ "T" ++
    jsPad d.hour ++ ":" ++ jsPad d.minute ++ ":" ++ jsPad d.second ++ "Z"

/-- Three-digit millisecond field: (ms/1000).toFixed(3).slice(2,5) for ms
in 0..999. -/
def jsPad3 (n : Nat) : String :=
  if n < 10 then "00" ++ toString n
  else if n < 100 then "0" ++ toString n
  else toString n

/-- Date.prototype.toISOString as the source's serializer renders it: the
full form with a three-digit fractional-seconds field. -/
def jsToISOString (d : JsDate) : String :=
  toString d.year ++ "-" ++ jsPad (d.month + 1) ++ "-" ++ jsPad d.day ++ "T" ++
    jsPad d.hour ++ ":" ++ jsPad d.minute ++ ":" ++ jsPad d.second ++ "." ++
    jsPad3 d.ms ++ "Z"

/-! ## The ISO-8601 date regex

CONST_ISO8601_REGEX, executed as a function: returns none when the regex
does not match, and otherwise whether the fractional-seconds group (group
7) is present. -/

def isDigit (c : Char) : Bool := '0' ≤ c && c ≤ '9'

def isoMonth2 (a b : Char) : Bool :=
  (a = '1' && (b = '0' || b = '1' || b = '2')) || (a = '0' && '1' ≤ b && b ≤ '9')

def isoDay2 (a b : Char) : Bool :=
  (a = '3' && (b = '0' || b = '1')) || (a = '0' && '1' ≤ b && b ≤ '9') ||
  ((a = '1' || a = '2') && isDigit b)

def isoHour2 (a b : Char) : Bool :=
  (a = '2' && '0' ≤ b && b ≤ '3') || ((a = '0' || a = '1') && isDigit b)

def isoMinSec2 (a b : Char) : Bool := ('0' ≤ a && a ≤ '5') && isDigit b

/-- After the seconds field: an optional Z and the end of input. -/
def iso8601End (hasFrac : Bool) : List Char → Option Bool
  | [] => some hasFrac
  | ['Z'] => some hasFrac
  | _ => none

/-- After the seconds field: an optional fractional group (a dot and at
least one digit), then an optional Z, then the end. -/
def iso8601AfterSec : List Char → Option Bool
  | '.' :: r =>
    let ds := r.takeWhile isDigit
    if ds.isEmpty then none else iso8601End true (r.dropWhile isDigit)
  | r => iso8601End false r

/-- The whole regex. The year is an optional sign and a maximal digit run
of at least four digits whose surplus over four must not start with 0. -/
def iso8601Exec (s : String) : Option Bool :=
  let l₀ := s.data
  let l := match l₀ with
    | '-' :: r => r
    | r => r
  let ds := l.takeWhile isDigit
  let r := l.dropWhile isDigit
  if ds.length < 4 then none
  else if 4 < ds.length && ds.head? = some '0' then none
  else
    match r with
    | '-' :: m₁ :: m₂ :: '-' :: d₁ :: d₂ :: 'T' :: h₁ :: h₂ :: ':' :: i₁ :: i₂ :: ':' :: s₁ :: s₂ :: rest =>
      if isoMonth2 m₁ m₂ && isoDay2 d₁ d₂ && isoHour2 h₁ h₂ &&
         isoMinSec2 i₁ i₂ && isoMinSec2 s₁ s₂ then iso8601AfterSec rest
      else none
    | _ => none

/-! ## The verifier middleware (HttpAuthenticationMiddleware) -/

structure AuthError where
  code : Nat
  msg : String
deriving DecidableEq, Repr

def CONST_AUTHORIZATION_TYPE : String := "FOMOPAY1-RSA-SHA256"

/-- The inbound request as the raw-request accessor exposes it. headers is
the engine's lowercased header map (a missing or non-string header is
absent); rawHeaders is the ordered raw (name, value) pair list; the
resolved full URL is carried pre-parsed as pathname plus decoded query
pairs in original order; body is the raw byte buffer when one was read. -/
structure HttpReq where
  headers : List (String × String)
  rawHeaders : List (String × String)
  method : String
  pathname : String
  query : List (String × String)
  body : Option (List Nat)
deriving DecidableEq, Repr

def jsHeadersGet (h : List (String × String)) (k : String) : Option String := objGet h k

/-- The verifier's external collaborators: date parsing, SHA-256 as a hex
digest, RSA-SHA256 verification (public key, hex signature, string to
sign), the merchant-key lookup (none: unregistered; some none: no usable
public key), JSON parsing, and the wall clock. -/
structure VerifierEnv (J : Type) where
  parseDate : String → Option JsDate
  sha256hex : List Nat → String
  verifySignature : String → String → String → Bool
  merchantLookup : String → Option (Option String)
  parseJson : List Nat → Option J
  now : Int

def isMandatoryHeader (key : String) : Bool :=
  key == "host" || key == "content-type" || strStartsWith key "x-fomopay-"

/-- The legal HTTP header-name character set of CONST_HTTP_HEADER_KEY_REGEX. -/
def httpHeaderKeyChar (c : Char) : Bool :=
  let n := c.toNat
  n == 0x21 || (0x23 ≤ n && n ≤ 0x27) || n == 0x2a || n == 0x2b || n == 0x2d ||
  n == 0x2e || (0x30 ≤ n && n ≤ 0x39) || (0x41 ≤ n && n ≤ 0x5a) ||
  (0x5e ≤ n && n ≤ 0x7a) || n == 0x7c || n == 0x7e

def httpHeaderKeyOk (s : String) : Bool := !s.data.isEmpty && s.data.all httpHeaderKeyChar

/-- Steps 1-3: extract the Authorization header, split scheme from the
credential blob at the first whitespace, match the scheme, parse the
comma-separated fields, and require exactly the three expected keys.
Returns (Credential, SignedHeaders, Signature). -/
def parseCredentialFieldsAux : List String → List (String × String) →
    Except AuthError (List (String × String))
  | [], acc => .ok acc
  | f :: fs, acc =>
    match jsSplit2 (fun c => c = '=') f with
    | none => .error ⟨0x0005, s!"Invalid authorization credentials format at \"{f}\"."⟩
    | some (k, v) =>
      if k.length ≤ 0 then .error ⟨0x0006, "Authorization credential key too short."⟩
      else if (objGet acc k).isSome then
        .error ⟨0x0007, s!"Duplicate authorization credential key found \"{k}\"."⟩
      else parseCredentialFieldsAux fs (acc ++ [(k, v)])

def credKeysOk (fields : List (String × String)) : Bool :=
  let keys := fields.map (fun e => e.1)
  (["Credential", "SignedHeaders", "Signature"].all (fun k => keys.contains k)) &&
  (keys.all (fun k => k == "Credential" || k == "SignedHeaders" || k == "Signature"))

def parseAuthorization (auth : Option String) : Except AuthError (String × String × String) :=
  match auth with
  | none => .error ⟨0x0001, "Authorization header cannot be found."⟩
  | some authorization =>
    match jsSplit2 jsIsSpace authorization with
    | none => .error ⟨0x0003, "Unable to split authorizationType and authorizationCredentials"⟩
    | some (tRaw, cRaw) =>
      let authorizationType := jsTrim tRaw
      let authorizationCredentials := jsTrim cRaw
      if authorizationType ≠ CONST_AUTHORIZATION_TYPE then
        .error ⟨0x0004, s!"Unsupported authorization type \"{authorizationType}\"."⟩
      else
        match parseCredentialFieldsAux (jsSplitOn ',' authorizationCredentials) [] with
        | .error e => .error e
        | .ok fields =>
          if ¬ credKeysOk fields then .error ⟨0x0008, "Missing or unexpected credential keys."⟩
          else
            .ok ((objGet fields "Credential").getD "",
                 (objGet fields "SignedHeaders").getD "",
                 (objGet fields "Signature").getD "")

/-- Step 4: split SignedHeaders on semicolons and reject duplicates
(length against Set size). -/
def splitSignedHeaders (sh : String) : Except AuthError (List String) :=
  let raw := jsSplitOn ';' sh
  if raw.length ≠ raw.dedup.length then
    .error ⟨0x0009, "Duplicate header key found in SignedHeaders."⟩
  else .ok raw

/-- Step 5: the scan over the raw header list. full is the declared signed
set (never shrinks), working the still-unseen part of it, acc the
collected (lowercased name, trimmed value) record in insertion order. -/
def scanHeaders : List (String × String) → List String → List String →
    List (String × String) → Except AuthError (List String × List (String × String))
  | [], _, working, acc => .ok (working, acc)
  | (name, value) :: rest, full, working, acc =>
    let key := jsToLower name
    if ¬ httpHeaderKeyOk key then .error ⟨0x0010, s!"Invalid HTTP header key \"{key}\"."⟩
    else if ¬ full.contains key then
      if isMandatoryHeader key then .error ⟨0x0010, s!"Compulsory header \"{name}\" not signed."⟩
      else scanHeaders rest full working acc
    else if ¬ working.contains key then
      .error ⟨0x0010, s!"Duplicate HTTP header \"{name}\" found."⟩
    else scanHeaders rest full (working.filter (fun k => k ≠ key)) (acc ++ [(key, jsTrim value)])

/-- Code-point lexicographic order on strings, the model of localeCompare
returning a negative value (the names at hand are lowercase ASCII tokens). -/
def charListLt : List Char → List Char → Bool
  | [], [] => false
  | [], _ :: _ => true
  | _ :: _, [] => false
  | a :: as, b :: bs =>
    if a.toNat < b.toNat then true else if b.toNat < a.toNat then false else charListLt as bs

def strLt (a b : String) : Bool := charListLt a.data b.data

/-- The sort by header name the canonicalization applies. -/
def insertSortedByKey (e : String × String) : List (String × String) → List (String × String)
  | [] => [e]
  | x :: xs => if strLt e.1 x.1 then e :: x :: xs else x :: insertSortedByKey e xs

def sortByKey (l : List (String × String)) : List (String × String) :=
  l.foldr insertSortedByKey []

structure PreScanOut where
  credential : String
  signature : String
  signedHeadersStr : String
  headersRaw : List (String × String)
  headersSorted : List (String × String)
  signedHeaders : String
deriving DecidableEq, Repr

/-- Steps 1-6: everything up to and including the recomputed
signed-header-string equality check. Pure in the request: no collaborator
is consulted. -/
def preScan (req : HttpReq) : Except AuthError PreScanOut :=
  match parseAuthorization (jsHeadersGet req.headers "authorization") with
  | .error e => .error e
  | .ok (credential, shStr, signature) =>
    match splitSignedHeaders shStr with
    | .error e => .error e
    | .ok shRaw =>
      match scanHeaders req.rawHeaders shRaw shRaw [] with
      | .error e => .error e
      | .ok (working, headersRaw) =>
        if working.length ≠ 0 then
          .error ⟨0x0011, s!"\"{working.length}\" signed header key not found in HTTP header."⟩
        else
          let headersSorted := sortByKey headersRaw
          let signedHeaders := joinSep ";" (headersSorted.map (fun e => e.1))
          if signedHeaders ≠ shStr then
            .error ⟨0x0012, "SignedHeaders field in authorization credentials is not properly formatted."⟩
          else .ok ⟨credential, signature, shStr, headersRaw, headersSorted, signedHeaders⟩

/-- Step 7: the nonce header must be present, 16-256 characters, all
alphanumeric. -/
def nonceFormatOk (s : String) : Bool :=
  16 ≤ s.length && s.length ≤ 256 &&
  s.data.all (fun c => isDigit c || ('A' ≤ c && c ≤ 'Z') || ('a' ≤ c && c ≤ 'z'))

def checkNonceHeader (h : Option String) : Except AuthError String :=
  match h with
  | none => .error ⟨0x0013, "Compulsory header x-fomopay-nonce cannot be found."⟩
  | some n =>
    if ¬ nonceFormatOk n then
      .error ⟨0x0014, s!"Requested x-fomopay-nonce has an invalid length \"{n.length}\" or contains non-alphanumeric characters."⟩
    else .ok n

/-- Step 8: the declared payload digest must equal the lowercase-hex
SHA-256 of the raw body (the empty buffer when none was read). -/
def checkDigest (sha256hex : List Nat → String) (declared : Option String)
    (body : Option (List Nat)) : Except AuthError String :=
  match declared with
  | none => .error ⟨0x0015, "Compulsory header x-fomopay-content-sha256 cannot be found."⟩
  | some declared =>
    let hashedPayload := jsToLower (sha256hex (body.getD []))
    if declared ≠ hashedPayload then
      .error ⟨0x0016, "Requested x-fomopay-content-sha256 does not match payload hash."⟩
    else .ok hashedPayload

/-- Step 9: the date header must parse; when the regex match has no
fractional group the value must equal the basic UTC serialization of the
parsed instant, otherwise it must round-trip through the full ISO-8601
serialization. -/
def checkDateFormat (parse : String → Option JsDate) (s : String) : Except AuthError JsDate :=
  match parse s with
  | none => .error ⟨0x0014, "Requested x-fomopay-date contains an invalid value."⟩
  | some d =>
    if iso8601Exec s ≠ some true then
      if getIso8601Time d ≠ s then .error ⟨0x0015, s!"Invalid x-fomopay-date \"{s}\" format."⟩
      else .ok d
    else
      if jsToISOString d ≠ s then .error ⟨0x0016, s!"Invalid x-fomopay-date \"{s}\" format."⟩
      else .ok d

/-- Step 10: the canonical query string: each decoded pair re-encoded with
fixedEncodeURIComponent, sorted by key then value, ampersand-joined. -/
def insertSortedPair (e : String × String) : List (String × String) → List (String × String)
  | [] => [e]
  | x :: xs =>
    if strLt e.1 x.1 || (e.1 = x.1 && strLt e.2 x.2) then e :: x :: xs
    else x :: insertSortedPair e xs

def canonicalQueryString (q : List (String × String)) : String :=
  let encoded := q.map (fun kv => (fixedEncodeURIComponent kv.1, fixedEncodeURIComponent kv.2))
  let sorted := encoded.foldr insertSortedPair []
  joinSep "&" (sorted.map (fun kv => kv.1 ++ "=" ++ kv.2))

/-- Steps 10 and the string-to-sign: verb, path, canonical query, canonical
headers, signed-header list and payload hash, then the scheme, date, nonce
and hashed canonical request. -/
def stringToSignOf (sha256hex : List Nat → String) (req : HttpReq) (p : PreScanOut)
    (hashedPayload dateStr nonce : String) : String :=
  let httpVerb := jsToUpper req.method
  let canonicalUri := req.pathname
  let cqs := canonicalQueryString req.query
  let canonicalHeaders := String.join (p.headersSorted.map (fun kv => kv.1 ++ ":" ++ kv.2 ++ "\n"))
  let canonicalRequest := httpVerb ++ "\n" ++ canonicalUri ++ "\n" ++ cqs ++ "\n" ++
    canonicalHeaders ++ "\n" ++ p.signedHeaders ++ "\n" ++ hashedPayload
  let hashedCanonicalRequest := jsToLower (sha256hex (utf8Bytes canonicalRequest.data))
  CONST_AUTHORIZATION_TYPE ++ "\n" ++ dateStr ++ "\n" ++ nonce ++ "\n" ++ hashedCanonicalRequest

structure Stage1Out where
  credential : String
  signature : String
  headersRaw : List (String × String)
  nonce : String
  hashedPayload : String
  dateStr : String
  date : JsDate
  stringToSign : String
  publicKey : String
deriving DecidableEq, Repr

/-- Steps 1-13: everything before the replay check, terminal at the first
failure. The source re-reads and re-asserts the x-fomopay-nonce header
between the digest and date checks; the lookup is deterministic and the
first assertion already succeeded, so the repetition is dropped here. -/
def stage1 (env : VerifierEnv J) (req : HttpReq) : Except AuthError Stage1Out :=
  match preScan req with
  | .error e => .error e
  | .ok p =>
    match checkNonceHeader (jsHeadersGet req.headers "x-fomopay-nonce") with
    | .error e => .error e
    | .ok nonce =>
      match checkDigest env.sha256hex (jsHeadersGet req.headers "x-fomopay-content-sha256") req.body with
      | .error e => .error e
      | .ok hashedPayload =>
        match jsHeadersGet req.headers "x-fomopay-date" with
        | none => .error ⟨0x0013, "Compulsory header x-fomopay-date cannot be found."⟩
        | some dateStr =>
          match checkDateFormat env.parseDate dateStr with
          | .error e => .error e
          | .ok date =>
            let stringToSign := stringToSignOf env.sha256hex req p hashedPayload dateStr nonce
            match env.merchantLookup p.credential with
            | none => .error ⟨0x0017, s!"Merchant \"{p.credential}\" is not registered."⟩
            | some none =>
              .error ⟨0x0017, s!"Merchant \"{p.credential}\" does not have a valid merchant public key registered."⟩
            | some (some publicKey) =>
              if ¬ env.verifySignature publicKey p.signature stringToSign then
                .error ⟨0x0017, "Unable to verify signature."⟩
              else if 300000 < (env.now - date.timeMs).natAbs then
                .error ⟨0x0019, "Timestamp out of range (300 seconds)."⟩
              else
                .ok ⟨p.credential, p.signature, p.headersRaw, nonce, hashedPayload,
                     dateStr, date, stringToSign, publicKey⟩

/-- Step 14's verb classification: a request is idempotent exactly when its
raw method string is GET or HEAD. -/
def idempotentOf (method : String) : Bool := method == "GET" || method == "HEAD"

structure HttpAuthenticationPayload (J : Type) where
  merchant : String
  json : Option J
  headers : List (String × String)
deriving DecidableEq, Repr

instance [DecidableEq ε] [DecidableEq α] : DecidableEq (Except ε α) := fun a b =>
  match a, b with
  | .error e₁, .error e₂ =>
    if h : e₁ = e₂ then .isTrue (by rw [h]) else .isFalse (by simp [h])
  | .error _, .ok _ => .isFalse (by simp)
  | .ok _, .error _ => .isFalse (by simp)
  | .ok v₁, .ok v₂ =>
    if h : v₁ = v₂ then .isTrue (by rw [h]) else .isFalse (by simp [h])

structure MidResult (J σ : Type) where
  result : Except AuthError (HttpAuthenticationPayload J)
  cache : σ
  nonceCalls : List (String × String × Bool)
deriving DecidableEq, Repr

/-- Steps 1-16: the whole middleware over a request. Returns the terminal
outcome, the replay cache after the request, and the trace of replay-guard
consultations (service, nonce, idempotent). -/
def HttpAuthenticationMiddleware (env : VerifierEnv J) (C : CacheIface σ)
    (req : HttpReq) (st : σ) : MidResult J σ :=
  match stage1 env req with
  | .error e => ⟨.error e, st, []⟩
  | .ok out =>
    let idem := idempotentOf req.method
    let added := NonceController.add C out.credential out.nonce idem st
    let calls := [(out.credential, out.nonce, idem)]
    if ¬ added.1 then ⟨.error ⟨0x0019, "Invalid or duplicate nonce."⟩, added.2, calls⟩
    else
      let reqBody := req.body.getD []
      if 0 < reqBody.length then
        match env.parseJson reqBody with
        | none => ⟨.error ⟨0x0018, "Unable to parse JSON payload."⟩, added.2, calls⟩
        | some j => ⟨.ok ⟨out.credential, some j, out.headersRaw⟩, added.2, calls⟩
      else ⟨.ok ⟨out.credential, none, out.headersRaw⟩, added.2, calls⟩

/-! ## Helper lemmas -/

theorem jsRound_nonpos {q : ℚ} (h : q ≤ 0) : jsRound q ≤ 0 := by
  unfold jsRound
  have h1 : q + 1/2 < ((1 : ℤ) : ℚ) := by push_cast; linarith
  have h2 : ⌊q + 1/2⌋ < (1 : ℤ) := Int.floor_lt.mpr h1
  omega

theorem objGet_filter_pred {p : String × CacheEntry α → Bool} {σ : LocalStore α}
    {k : String} {e : CacheEntry α} (h : objGet (σ.filter p) k = some e) :
    ∃ k₂, p (k₂, e) = true := by
  unfold objGet at h
  cases hf : (σ.filter p).find? (fun x => x.1 = k) with
  | none => rw [hf] at h; simp at h
  | some x =>
    rw [hf] at h
    have hmem := List.mem_of_find?_eq_some hf
    have hp := (List.mem_filter.mp hmem).2
    obtain rfl : x.2 = e := by simpa using h
    exact ⟨x.1, by simpa using hp⟩

/-! ## Claims about the replay guard -/

/-- C1: for every service, nonce and cache state, a non-idempotent add
returns false and leaves the cache unchanged when the (service, nonce)
entry is present, and otherwise stores the entry for one default retention
period (expiring at now + ttlMs) and returns true. -/
theorem nonceController_add_nonIdempotent_correct
    (ttlMs now : Int) (st : LocalStore Unit) (s n : String) :
    (ConfigCacheLocal.get st (nonceToken s n) ≠ none →
      NonceController.add (localNonceIface ttlMs now) s n false st = (false, st)) ∧
    (ConfigCacheLocal.get st (nonceToken s n) = none →
      NonceController.add (localNonceIface ttlMs now) s n false st =
        (true, objSet st (nonceToken s n) ⟨ttlMs + now, ()⟩)) := by
  constructor
  · intro h
    have hs : (ConfigCacheLocal.get st (nonceToken s n)).isSome = true := by
      cases hg : ConfigCacheLocal.get st (nonceToken s n) with
      | none => exact absurd hg h
      | some v => rfl
    unfold NonceController.add localNonceIface
    simp [hs]
  · intro h
    unfold NonceController.add localNonceIface
    simp [h, ConfigCacheLocal.setEntry, localComputedExp]

theorem nonceController_add_nonIdempotent_correct_witness :
    NonceController.add (localNonceIface 600000 0) "svc" "n0" false
        [(nonceToken "svc" "n0", ⟨5, ()⟩)] =
      (false, [(nonceToken "svc" "n0", ⟨5, ()⟩)]) ∧
    NonceController.add (localNonceIface 600000 0) "svc" "n0" false [] =
      (true, objSet [] (nonceToken "svc" "n0") ⟨600000 + 0, ()⟩) :=
  ⟨(nonceController_add_nonIdempotent_correct 600000 0
      [(nonceToken "svc" "n0", ⟨5, ()⟩)] "svc" "n0").1 (by decide),
   (nonceController_add_nonIdempotent_correct 600000 0 [] "svc" "n0").2 (by decide)⟩

/-- C2: an idempotent add always stores (refreshes) the entry and returns
true whatever the cache state, so a second idempotent add with the same
(service, nonce) also returns true; and the verifier classifies a request
as idempotent exactly when its method is GET or HEAD. -/
theorem nonceController_add_idempotent_correct
    (ttlMs now now₂ : Int) (st : LocalStore Unit) (s n m : String) :
    NonceController.add (localNonceIface ttlMs now) s n true st =
      (true, objSet st (nonceToken s n) ⟨ttlMs + now, ()⟩) ∧
    (NonceController.add (localNonceIface ttlMs now₂) s n true
      (NonceController.add (localNonceIface ttlMs now) s n true st).2).1 = true ∧
    (idempotentOf m = true ↔ m = "GET" ∨ m = "HEAD") := by
  refine ⟨?_, ?_, ?_⟩
  · unfold NonceController.add localNonceIface
    simp [ConfigCacheLocal.setEntry, localComputedExp]
  · simp [NonceController.add, localNonceIface]
  · unfold idempotentOf
    simp

/-! ## Claims about cache expiry -/

/-- C3 counterexample: on the local backend an entry stored at time 0 with
a one-second TTL (expiration instant 1000) is still returned by get when
observed at time 999999, strictly after its expiration instant, because the
source's get never consults the expiration instant and the purge has not
run. -/
theorem localCache_serves_expired_entry :
    ConfigCacheLocal.setEntry 1000 ([] : LocalStore Nat) 0 "k" 42 none =
      [("k", ⟨1000, 42⟩)] ∧
    ConfigCacheLocal.getAt [("k", (⟨1000, 42⟩ : CacheEntry Nat))] 999999 "k" = some 42 ∧
    (1000 : Int) < 999999 := by decide

/-- C3 (amended): the shared backend never returns a value at or past its
expiration instant (the external store's contract); the local backend
guarantees this only after the purge has run: a purge at time now removes
every entry whose expiration instant is at or before now, so the purged
store holds only unexpired entries — but between the expiration instant
and the purge the local get does return the expired value. -/
theorem cache_never_serves_expired_amended (α : Type) :
    (∀ (deser : String → α) (project scope k : String) (ρ : RedisStore) (now : Int)
       (e : String × ℚ) (ioFail : Bool),
       objGet ρ (remoteKey project scope k) = some e → e.2 ≤ (now : ℚ) →
       ConfigCacheRemote.get deser project scope ρ now k ioFail = none) ∧
    (∀ (σ : LocalStore α) (now : Int) (k : String) (e : CacheEntry α),
       objGet (ConfigCacheLocal.purge σ now) k = some e → now < e.exp) := by
  constructor
  · intro deser project scope k ρ now e ioFail hget hexp
    unfold ConfigCacheRemote.get redisGet
    cases ioFail with
    | true => rfl
    | false =>
      simp only [Bool.false_eq_true, if_false, hget]
      have : ¬ ((now : ℚ) < e.2) := not_lt.mpr hexp
      simp [this]
  · intro σ now k e h
    unfold ConfigCacheLocal.purge at h
    obtain ⟨k₂, hp⟩ := objGet_filter_pred h
    simpa using of_decide_eq_true hp

theorem cache_never_serves_expired_amended_witness :
    ConfigCacheRemote.get (fun _ => (0 : Nat)) "p" "s"
      [(remoteKey "p" "s" "k", ("v", (5 : ℚ)))] 10 "k" false = none ∧
    (50 : Int) < 100 :=
  ⟨(cache_never_serves_expired_amended Nat).1 (fun _ => 0) "p" "s" "k"
      [(remoteKey "p" "s" "k", ("v", 5))] 10 ("v", 5) false (by decide) (by norm_num),
   (cache_never_serves_expired_amended Nat).2 [("k", ⟨100, 0⟩)] 50 "k" ⟨100, 0⟩ (by decide)⟩

/-! ## Claim about the shared backend's set skipping non-positive TTLs -/

/-- C10: a shared-backend set whose computed expiration is not positive
returns successfully without writing anything to the external store; a
relative TTL that rounds to zero or less and an absolute expiration instant
at or before the current time both make the computed expiration
non-positive. -/
theorem remoteCache_set_nonpositive_ttl_noop
    (α : Type) (ttlDefault : ℚ) (project scope : String) (ser : α → String)
    (ρ : RedisStore) (now : Int) (k : String) (v : α)
    (opts : Option ConfigCacheAddOptions) (ioFail : Bool) :
    (remoteComputedExp ttlDefault now opts ≤ 0 →
      ConfigCacheRemote.set ttlDefault project scope ser ρ now k (some v) opts ioFail =
        .ok ρ) ∧
    (∀ t : ℚ, opts = some ⟨t, true⟩ → t ≤ (now : ℚ) / 1000 →
      remoteComputedExp ttlDefault now opts ≤ 0) ∧
    (∀ t : ℚ, opts = some ⟨t, false⟩ → jsRound t ≤ 0 →
      remoteComputedExp ttlDefault now opts ≤ 0) := by
  refine ⟨?_, ?_, ?_⟩
  · intro h
    unfold ConfigCacheRemote.set
    simp [h]
  · intro t ho ht
    subst ho
    unfold remoteComputedExp
    simp only [if_true]
    have h1 : jsRound (t - (now : ℚ) / 1000) ≤ 0 := jsRound_nonpos (by linarith)
    exact_mod_cast h1
  · intro t ho ht
    subst ho
    unfold remoteComputedExp
    simp only [if_false]
    exact_mod_cast ht

theorem remoteCache_set_nonpositive_ttl_noop_witness :
    ConfigCacheRemote.set 600 "p" "s" (fun n => toString n)
      [("x", ("v", (7 : ℚ)))] 5000 "k" (some (3 : Nat)) (some ⟨0, false⟩) false =
      .ok [("x", ("v", (7 : ℚ)))] ∧
    remoteComputedExp 600 5000 (some ⟨(2 : ℚ), true⟩) ≤ 0 ∧
    remoteComputedExp 600 5000 (some ⟨(0 : ℚ), false⟩) ≤ 0 :=
  ⟨(remoteCache_set_nonpositive_ttl_noop Nat 600 "p" "s" (fun n => toString n)
      [("x", ("v", 7))] 5000 "k" 3 (some ⟨0, false⟩) false).1
      (by norm_num [remoteComputedExp, jsRound]),
   (remoteCache_set_nonpositive_ttl_noop Nat 600 "p" "s" (fun n => toString n)
      [("x", ("v", 7))] 5000 "k" 3 (some ⟨2, true⟩) false).2.1 2 rfl (by norm_num),
   (remoteCache_set_nonpositive_ttl_noop Nat 600 "p" "s" (fun n => toString n)
      [("x", ("v", 7))] 5000 "k" 3 (some ⟨0, false⟩) false).2.2 0 rfl
      (by norm_num [jsRound])⟩

/-! ## Claim about the date-format check -/

theorem checkDateFormat_ok_parse {p : String → Option JsDate} {s : String} {d : JsDate}
    (h : checkDateFormat p s = .ok d) : p s = some d := by
  unfold checkDateFormat at h
  cases hp : p s with
  | none => rw [hp] at h; exact absurd h (by simp)
  | some d₀ =>
    rw [hp] at h
    by_cases h1 : iso8601Exec s = some true <;>
      by_cases h2 : jsToISOString d₀ = s <;>
      by_cases h3 : getIso8601Time d₀ = s <;>
      simp_all

/-- C7: the verifier accepts the date header value s and returns the parsed
instant d exactly when s parses as a valid date to d and either the
ISO-8601 regex match has no fractional-seconds group and s equals the basic
UTC serialization of d byte for byte, or the match has a fractional group
and s round-trips exactly through the full ISO-8601 re-serialization of d;
every other textual variant is rejected even if it parses. -/
theorem checkDateFormat_characterization
    (parse : String → Option JsDate) (s : String) (d : JsDate) :
    checkDateFormat parse s = .ok d ↔
      (parse s = some d ∧
        ((iso8601Exec s ≠ some true ∧ getIso8601Time d = s) ∨
         (iso8601Exec s = some true ∧ jsToISOString d = s))) := by
  constructor
  · intro hh
    have hp := checkDateFormat_ok_parse hh
    refine ⟨hp, ?_⟩
    unfold checkDateFormat at hh
    rw [hp] at hh
    by_cases h1 : iso8601Exec s = some true
    · refine Or.inr ⟨h1, ?_⟩
      by_contra hne
      simp [h1, hne] at hh
    · refine Or.inl ⟨h1, ?_⟩
      by_contra hne
      simp [h1, hne] at hh
  · rintro ⟨hp, hcase⟩
    unfold checkDateFormat
    rw [hp]
    rcases hcase with ⟨h1, h2⟩ | ⟨h1, h2⟩
    · simp [h1, h2]
    · simp [h1, h2]

/-! ## A concrete fully-valid example request

A POST with all five mandatory-or-declared headers signed, a 16-character
alphanumeric nonce, a matching payload digest under a stub SHA-256, a
canonical basic-form date header, a registered merchant and an accepting
signature collaborator; the wall clock equals the declared instant. -/

def exampleDate : JsDate := ⟨2024, 0, 1, 0, 0, 0, 0, 1704067200000⟩

def exampleAuth : String :=
  "FOMOPAY1-RSA-SHA256 Credential=merchant-1,SignedHeaders=content-type;host;x-fomopay-content-sha256;x-fomopay-date;x-fomopay-nonce,Signature=ab"

def exampleReq : HttpReq where
  headers := [("authorization", exampleAuth),
              ("host", "api.example.com"),
              ("content-type", "application/json"),
              ("x-fomopay-nonce", "N0ABCDEF01234567"),
              ("x-fomopay-content-sha256", "deadbeef"),
              ("x-fomopay-date", "2024-01-01T00:00:00Z")]
  rawHeaders := [("Host", "api.example.com"),
                 ("Content-Type", "application/json"),
                 ("Authorization", exampleAuth),
                 ("x-fomopay-nonce", "N0ABCDEF01234567"),
                 ("x-fomopay-content-sha256", "deadbeef"),
                 ("x-fomopay-date", "2024-01-01T00:00:00Z")]
  method := "POST"
  pathname := "/v1/charge"
  query := []
  body := some [0x7b]

def exampleEnv : VerifierEnv Unit where
  parseDate := fun s => if s = "2024-01-01T00:00:00Z" then some exampleDate else none
  sha256hex := fun _ => "deadbeef"
  verifySignature := fun _ _ _ => true
  merchantLookup := fun _ => some (some "PK")
  parseJson := fun _ => some ()
  now := 1704067200000

/-- The same collaborators with a JSON parser that rejects the body. -/
def envBadJson : VerifierEnv Unit :=
  { exampleEnv with parseJson := fun _ => none }

/-- The same collaborators observed 300001 ms after the declared instant. -/
def envStale : VerifierEnv Unit :=
  { exampleEnv with now := 1704067200000 + 300001 }

/-- The same collaborators with the merchant unregistered. -/
def envNoMerchant : VerifierEnv Unit :=
  { exampleEnv with merchantLookup := fun _ => none }

/-- The same collaborators with a rejecting signature verifier. -/
def envBadSig : VerifierEnv Unit :=
  { exampleEnv with verifySignature := fun _ _ _ => false }

/-- A nonce cache already holding the example request's (service, nonce)
entry. -/
def seededStore : LocalStore Unit :=
  [(nonceToken "merchant-1" "N0ABCDEF01234567", ⟨1704067800000, ()⟩)]

/-! ## Claims about the replay-guard consultation -/

theorem middleware_nonceCalls_eq (env : VerifierEnv J) (C : CacheIface σ)
    (req : HttpReq) (st : σ) :
    (HttpAuthenticationMiddleware env C req st).nonceCalls =
      match stage1 env req with
      | .error _ => []
      | .ok out => [(out.credential, out.nonce, idempotentOf req.method)] := by
  unfold HttpAuthenticationMiddleware
  cases stage1 env req with
  | error e => rfl
  | ok out =>
    dsimp only
    split
    · rfl
    · split
      · split <;> rfl
      · rfl

/-- C4 counterexample: a request that passes every check up to and
including the replay check but whose non-empty body fails to parse as JSON
is rejected with 0x0018, yet the replay guard was consulted and the nonce
entry stored: a malformed-body request does consume nonce-cache capacity. -/
theorem malformed_body_consumes_nonce :
    (HttpAuthenticationMiddleware envBadJson (localNonceIface 600000 1704067200000)
        exampleReq []).result = .error ⟨0x0018, "Unable to parse JSON payload."⟩ ∧
    (HttpAuthenticationMiddleware envBadJson (localNonceIface 600000 1704067200000)
        exampleReq []).nonceCalls = [("merchant-1", "N0ABCDEF01234567", false)] ∧
    ConfigCacheLocal.get
      (HttpAuthenticationMiddleware envBadJson (localNonceIface 600000 1704067200000)
        exampleReq []).cache
      (nonceToken "merchant-1" "N0ABCDEF01234567") = some () := by decide

/-- C4 (amended): the verifier consults the replay guard at most once per
request, and consults it at all exactly when every validation before it
(authorization parsing, header collection, nonce format, payload digest,
date format, key resolution, signature, timestamp freshness) has
succeeded; body parsing, however, runs after the replay check, so a
request whose body fails to parse still consumes a nonce entry. -/
theorem replayGuard_consulted_once_after_validation
    (J σ : Type) (env : VerifierEnv J) (C : CacheIface σ) (req : HttpReq) (st : σ) :
    (HttpAuthenticationMiddleware env C req st).nonceCalls.length ≤ 1 ∧
    ((HttpAuthenticationMiddleware env C req st).nonceCalls ≠ [] ↔
      ∃ out, stage1 env req = .ok out) := by
  rw [middleware_nonceCalls_eq]
  cases hs : stage1 env req with
  | error e => simp [hs]
  | ok out => simp [hs]

/-! ## Claims about error codes -/

/-- C5 counterexample: two different failure conditions carry the same
internal error code 0x0019: the example request with a stale wall clock
(fresh replay cache) fails the timestamp check, and the same request with
a fresh wall clock but its nonce already cached fails the replay check;
the two AuthErrors have the same code and different messages. -/
theorem distinct_failures_share_error_code :
    (HttpAuthenticationMiddleware envStale (localNonceIface 600000 1704367201000)
        exampleReq []).result =
      .error ⟨0x0019, "Timestamp out of range (300 seconds)."⟩ ∧
    (HttpAuthenticationMiddleware exampleEnv (localNonceIface 600000 1704067200000)
        exampleReq seededStore).result =
      .error ⟨0x0019, "Invalid or duplicate nonce."⟩ ∧
    ("Timestamp out of range (300 seconds)." ≠ "Invalid or duplicate nonce.") := by
  decide

/-- C5 (amended): every failure path carries a stable internal error code,
but the codes are not pairwise distinct across failure conditions: a stale
timestamp and a replayed nonce both carry 0x0019, and an unregistered
tenant and a failing signature both carry 0x0017, distinguished internally
only by their messages. -/
theorem error_codes_stable_but_shared :
    ((HttpAuthenticationMiddleware envStale (localNonceIface 600000 1704367201000)
        exampleReq []).result =
      .error ⟨0x0019, "Timestamp out of range (300 seconds)."⟩) ∧
    ((HttpAuthenticationMiddleware exampleEnv (localNonceIface 600000 1704067200000)
        exampleReq seededStore).result =
      .error ⟨0x0019, "Invalid or duplicate nonce."⟩) ∧
    ((HttpAuthenticationMiddleware envNoMerchant (localNonceIface 600000 1704067200000)
        exampleReq []).result =
      .error ⟨0x0017, "Merchant \"merchant-1\" is not registered."⟩) ∧
    ((HttpAuthenticationMiddleware envBadSig (localNonceIface 600000 1704067200000)
        exampleReq []).result =
      .error ⟨0x0017, "Unable to verify signature."⟩) := by
  decide

/-! ## Claim about timestamp freshness -/

theorem stage1_ok_implies_fresh {env : VerifierEnv J} {req : HttpReq} {out : Stage1Out}
    (h : stage1 env req = .ok out) :
    jsHeadersGet req.headers "x-fomopay-date" = some out.dateStr ∧
    env.parseDate out.dateStr = some out.date ∧
    (env.now - out.date.timeMs).natAbs ≤ 300000 := by
  unfold stage1 at h
  cases h1 : preScan req with
  | error e => rw [h1] at h; exact absurd h (by simp)
  | ok p =>
  rw [h1] at h; dsimp only at h
  cases h2 : checkNonceHeader (jsHeadersGet req.headers "x-fomopay-nonce") with
  | error e => rw [h2] at h; exact absurd h (by simp)
  | ok nonce =>
  rw [h2] at h; dsimp only at h
  cases h3 : checkDigest env.sha256hex (jsHeadersGet req.headers "x-fomopay-content-sha256")
      req.body with
  | error e => rw [h3] at h; exact absurd h (by simp)
  | ok hpay =>
  rw [h3] at h; dsimp only at h
  cases h4 : jsHeadersGet req.headers "x-fomopay-date" with
  | none => rw [h4] at h; exact absurd h (by simp)
  | some ds =>
  rw [h4] at h; dsimp only at h
  cases h5 : checkDateFormat env.parseDate ds with
  | error e => rw [h5] at h; exact absurd h (by simp)
  | ok d =>
  rw [h5] at h; dsimp only at h
  cases h6 : env.merchantLookup p.credential with
  | none => rw [h6] at h; exact absurd h (by simp)
  | some pkOpt =>
  rw [h6] at h
  cases pkOpt with
  | none => exact absurd h (by simp)
  | some pk =>
  dsimp only at h
  by_cases h7 : env.verifySignature pk p.signature
      (stringToSignOf env.sha256hex req p hpay ds nonce) = true
  case neg => simp [h7] at h
  case pos =>
  by_cases h8 : 300000 < (env.now - d.timeMs).natAbs
  · simp [h7, h8] at h
  · simp only [h7, h8, if_false, if_true, Bool.not_true, not_true, not_false_iff,
      ite_false, ite_true] at h
    have h9 : (⟨p.credential, p.signature, p.headersRaw, nonce, hpay, ds, d,
        stringToSignOf env.sha256hex req p hpay ds nonce, pk⟩ : Stage1Out) = out := by
      by_contra hc
      simp [hc] at h
    subst h9
    exact ⟨rfl, checkDateFormat_ok_parse h5,
      by show (env.now - d.timeMs).natAbs ≤ 300000; omega⟩

/-- C6: a request whose declared date header parses to an instant that
differs from the wall clock by more than 300000 ms in either direction is
rejected, whatever the signature collaborator answers: no outcome of
signature verification can make it succeed. -/
theorem stale_timestamp_rejected (J σ : Type) (env : VerifierEnv J) (C : CacheIface σ)
    (req : HttpReq) (st : σ) (ds : String) (d : JsDate)
    (h₁ : jsHeadersGet req.headers "x-fomopay-date" = some ds)
    (h₂ : env.parseDate ds = some d)
    (h₃ : 300000 < (env.now - d.timeMs).natAbs) :
    ∃ e, (HttpAuthenticationMiddleware env C req st).result = .error e := by
  unfold HttpAuthenticationMiddleware
  cases hs : stage1 env req with
  | error e => exact ⟨e, rfl⟩
  | ok out =>
    exfalso
    obtain ⟨hd, hp, hf⟩ := stage1_ok_implies_fresh hs
    rw [h₁] at hd
    obtain rfl : ds = out.dateStr := Option.some.inj hd
    rw [h₂] at hp
    obtain rfl : d = out.date := Option.some.inj hp
    omega

theorem stale_timestamp_rejected_witness :
    ∃ e, (HttpAuthenticationMiddleware envStale
      (localNonceIface 600000 1704367201000) exampleReq ([] : LocalStore Unit)).result =
        .error e :=
  stale_timestamp_rejected Unit (LocalStore Unit) envStale
    (localNonceIface 600000 1704367201000) exampleReq [] "2024-01-01T00:00:00Z"
    exampleDate (by decide) (by decide) (by decide)

/-! ## Claim about mandatory signed headers -/

theorem scanHeaders_mandatory_unsigned (raw : List (String × String)) (full : List String)
    (k v : String) (hmem : (k, v) ∈ raw) (hmand : isMandatoryHeader (jsToLower k) = true)
    (hnot : jsToLower k ∉ full) :
    ∀ working acc, ∃ e, scanHeaders raw full working acc = .error e := by
  induction raw with
  | nil => simp at hmem
  | cons hd tl ih =>
    intro working acc
    obtain ⟨name, value⟩ := hd
    rcases List.mem_cons.mp hmem with heq | hmem2
    · obtain ⟨rfl, rfl⟩ : k = name ∧ v = value := by
        simpa [eq_comm] using congrArg id heq
      by_cases hkey : httpHeaderKeyOk (jsToLower k) = true
      · refine ⟨⟨0x0010, s!"Compulsory header \"{k}\" not signed."⟩, ?_⟩
        simp [scanHeaders, hkey, hnot, hmand]
      · refine ⟨⟨0x0010, s!"Invalid HTTP header key \"{jsToLower k}\"."⟩, ?_⟩
        simp [scanHeaders, hkey]
    · by_cases hkey : httpHeaderKeyOk (jsToLower name) = true
      · by_cases hfull : jsToLower name ∈ full
        · by_cases hwork : jsToLower name ∈ working
          · obtain ⟨e, he⟩ := ih hmem2 (working.filter (fun x => x ≠ jsToLower name))
              (acc ++ [(jsToLower name, jsTrim value)])
            simp only [ne_eq, decide_not] at he
            exact ⟨e, by simp [scanHeaders, hkey, hfull, hwork, he]⟩
          · exact ⟨⟨0x0010, s!"Duplicate HTTP header \"{name}\" found."⟩,
              by simp [scanHeaders, hkey, hfull, hwork]⟩
        · by_cases hm2 : isMandatoryHeader (jsToLower name) = true
          · exact ⟨⟨0x0010, s!"Compulsory header \"{name}\" not signed."⟩,
              by simp [scanHeaders, hkey, hfull, hm2]⟩
          · obtain ⟨e, he⟩ := ih hmem2 working acc
            exact ⟨e, by simp [scanHeaders, hkey, hfull, hm2, he]⟩
      · exact ⟨⟨0x0010, s!"Invalid HTTP header key \"{jsToLower name}\"."⟩,
          by simp [scanHeaders, hkey]⟩

theorem preScan_mandatory_unsigned (req : HttpReq) (k v : String)
    (hmem : (k, v) ∈ req.rawHeaders) (hmand : isMandatoryHeader (jsToLower k) = true)
    (hunsigned : ∀ cred sh sig,
      parseAuthorization (jsHeadersGet req.headers "authorization") = .ok (cred, sh, sig) →
      jsToLower k ∉ jsSplitOn ';' sh) :
    ∃ e, preScan req = .error e := by
  unfold preScan
  cases ha : parseAuthorization (jsHeadersGet req.headers "authorization") with
  | error e => exact ⟨e, rfl⟩
  | ok triple =>
    obtain ⟨cred, sh, sig⟩ := triple
    have hmem3 := hunsigned cred sh sig ha
    unfold splitSignedHeaders
    by_cases hdup : (jsSplitOn ';' sh).length ≠ (jsSplitOn ';' sh).dedup.length
    · exact ⟨⟨0x0009, "Duplicate header key found in SignedHeaders."⟩, by simp [hdup]⟩
    · obtain ⟨e, he⟩ := scanHeaders_mandatory_unsigned req.rawHeaders (jsSplitOn ';' sh)
        k v hmem hmand hmem3 (jsSplitOn ';' sh) []
      exact ⟨e, by simp [hdup, he]⟩

/-- C8: a request carrying a header whose lowercased name is host,
content-type or bears the reserved x-fomopay- prefix that is not listed in
the declared SignedHeaders set always fails verification, with the same
error whatever the signature collaborator (or any other collaborator)
answers, and without the replay guard ever being consulted: the rejection
is decided before the signature is ever checked. -/
theorem mandatory_unsigned_header_rejected
    (J₁ J₂ σ₁ σ₂ : Type) (env₁ : VerifierEnv J₁) (env₂ : VerifierEnv J₂)
    (C₁ : CacheIface σ₁) (C₂ : CacheIface σ₂) (req : HttpReq) (st₁ : σ₁) (st₂ : σ₂)
    (k v : String) (hmem : (k, v) ∈ req.rawHeaders)
    (hmand : isMandatoryHeader (jsToLower k) = true)
    (hunsigned : ∀ cred sh sig,
      parseAuthorization (jsHeadersGet req.headers "authorization") = .ok (cred, sh, sig) →
      jsToLower k ∉ jsSplitOn ';' sh) :
    ∃ e, (HttpAuthenticationMiddleware env₁ C₁ req st₁).result = .error e ∧
         (HttpAuthenticationMiddleware env₂ C₂ req st₂).result = .error e ∧
         (HttpAuthenticationMiddleware env₁ C₁ req st₁).nonceCalls = [] := by
  obtain ⟨e, he⟩ := preScan_mandatory_unsigned req k v hmem hmand hunsigned
  have hs₁ : stage1 env₁ req = .error e := by unfold stage1; rw [he]
  have hs₂ : stage1 env₂ req = .error e := by unfold stage1; rw [he]
  exact ⟨e, by simp [HttpAuthenticationMiddleware, hs₁],
    by simp [HttpAuthenticationMiddleware, hs₂],
    by simp [HttpAuthenticationMiddleware, hs₁]⟩

/-- The example request with one extra x-fomopay-prefixed header that is
absent from the declared SignedHeaders set. -/
def exampleReqUnsigned : HttpReq :=
  { exampleReq with
      rawHeaders := exampleReq.rawHeaders ++ [("X-Fomopay-Extra", "1")] }

theorem mandatory_unsigned_header_rejected_witness :
    ∃ e, (HttpAuthenticationMiddleware exampleEnv (localNonceIface 600000 1704067200000)
            exampleReqUnsigned ([] : LocalStore Unit)).result = .error e ∧
         (HttpAuthenticationMiddleware envBadSig (localNonceIface 600000 1704067200000)
            exampleReqUnsigned ([] : LocalStore Unit)).result = .error e ∧
         (HttpAuthenticationMiddleware exampleEnv (localNonceIface 600000 1704067200000)
            exampleReqUnsigned ([] : LocalStore Unit)).nonceCalls = [] :=
  mandatory_unsigned_header_rejected Unit Unit (LocalStore Unit) (LocalStore Unit)
    exampleEnv envBadSig (localNonceIface 600000 1704067200000)
    (localNonceIface 600000 1704067200000) exampleReqUnsigned [] []
    "X-Fomopay-Extra" "1" (by decide) (by decide)
    (by
      intro cred sh sig h
      have hpa : parseAuthorization (jsHeadersGet exampleReqUnsigned.headers "authorization") =
          .ok ("merchant-1",
            "content-type;host;x-fomopay-content-sha256;x-fomopay-date;x-fomopay-nonce",
            "ab") := by decide
      rw [hpa] at h
      obtain ⟨h1, h2, h3⟩ := by simpa using h
      subst h2
      decide)

/-! ## Claim about the composite cache key

The composite key encodeURIComponent(service)/encodeURIComponent(nonce) is
injective on (service, nonce) pairs: percent-encoding is injective and its
output never contains the slash separator. -/

theorem char_eq_of_toNat_eq {c₁ c₂ : Char} (h : c₁.toNat = c₂.toNat) : c₁ = c₂ :=
  Char.ext (UInt32.ext h)

theorem charToNat_lt (c : Char) : c.toNat < 1114112 := by
  have h := c.valid
  unfold UInt32.isValidChar Nat.isValidChar at h
  unfold Char.toNat
  rcases h with h | ⟨h1, h2⟩
  · omega
  · omega

theorem charUtf8_ne_nil (c : Char) : charUtf8 c ≠ [] := by
  unfold charUtf8
  split_ifs <;> simp

theorem charUtf8_lt_256 (c : Char) : ∀ b ∈ charUtf8 c, b < 256 := by
  have hc := charToNat_lt c
  intro b hb
  unfold charUtf8 at hb
  split_ifs at hb <;>
    simp only [List.mem_cons, List.not_mem_nil, or_false] at hb
  · subst hb; omega
  · rcases hb with rfl | rfl <;> omega
  · rcases hb with rfl | rfl | rfl <;> omega
  · rcases hb with rfl | rfl | rfl | rfl <;> omega

theorem charUtf8_append_inj {c₁ c₂ : Char} {t₁ t₂ : List Nat}
    (h : charUtf8 c₁ ++ t₁ = charUtf8 c₂ ++ t₂) : c₁ = c₂ ∧ t₁ = t₂ := by
  have b₁ := charToNat_lt c₁
  have b₂ := charToNat_lt c₂
  unfold charUtf8 at h
  split_ifs at h <;>
    simp only [List.cons_append, List.nil_append, List.cons.injEq] at h
  all_goals
    first
    | (exfalso; omega)
    | (refine ⟨char_eq_of_toNat_eq (by omega), by tauto⟩)

theorem utf8Bytes_inj : ∀ {l₁ l₂ : List Char}, utf8Bytes l₁ = utf8Bytes l₂ → l₁ = l₂ := by
  intro l₁
  induction l₁ with
  | nil =>
    intro l₂ h
    cases l₂ with
    | nil => rfl
    | cons d ds =>
      exfalso
      have h2 : ([] : List Nat) = charUtf8 d ++ utf8Bytes ds := h
      exact charUtf8_ne_nil d (List.append_eq_nil.mp h2.symm).1
  | cons c cs ih =>
    intro l₂ h
    cases l₂ with
    | nil =>
      exfalso
      have h2 : charUtf8 c ++ utf8Bytes cs = ([] : List Nat) := h
      exact charUtf8_ne_nil c (List.append_eq_nil.mp h2).1
    | cons d ds =>
      have h2 : charUtf8 c ++ utf8Bytes cs = charUtf8 d ++ utf8Bytes ds := h
      obtain ⟨rfl, h3⟩ := charUtf8_append_inj h2
      rw [ih h3]

theorem charOfNat_toNat_ascii : ∀ b < 128, (Char.ofNat b).toNat = b := by decide

theorem uriUnreserved_lt {b : Nat} (h : uriUnreserved b = true) : b < 128 := by
  unfold uriUnreserved at h
  simp only [Bool.or_eq_true, Bool.and_eq_true, decide_eq_true_eq, beq_iff_eq] at h
  omega

theorem hexDigitUpper_inj : ∀ m < 16, ∀ n < 16, hexDigitUpper m = hexDigitUpper n → m = n := by
  decide

theorem hexDigitUpper_ne_percent : ∀ n < 16, hexDigitUpper n ≠ '%' := by decide

theorem hexDigitUpper_ne_slash : ∀ n < 16, hexDigitUpper n ≠ '/' := by decide

theorem encByte_ne_nil (b : Nat) : encByte b ≠ [] := by
  unfold encByte
  split_ifs <;> simp

theorem encByte_append_inj {b₁ b₂ : Nat} (hb₁ : b₁ < 256) (hb₂ : b₂ < 256)
    {t₁ t₂ : List Char} (h : encByte b₁ ++ t₁ = encByte b₂ ++ t₂) : b₁ = b₂ ∧ t₁ = t₂ := by
  unfold encByte at h
  by_cases hu₁ : uriUnreserved b₁ = true <;> by_cases hu₂ : uriUnreserved b₂ = true <;>
    simp only [hu₁, hu₂, if_true, if_false, Bool.false_eq_true,
      List.cons_append, List.nil_append, List.cons.injEq] at h
  · obtain ⟨h1, h2⟩ := h
    have e₁ := charOfNat_toNat_ascii b₁ (uriUnreserved_lt hu₁)
    have e₂ := charOfNat_toNat_ascii b₂ (uriUnreserved_lt hu₂)
    exact ⟨by rw [← e₁, ← e₂, h1], h2⟩
  · exfalso
    have e₁ := charOfNat_toNat_ascii b₁ (uriUnreserved_lt hu₁)
    have h37 : b₁ = 37 := by
      have := congrArg Char.toNat h.1
      rw [e₁] at this
      simpa using this
    subst h37
    exact absurd hu₁ (by decide)
  · exfalso
    have e₂ := charOfNat_toNat_ascii b₂ (uriUnreserved_lt hu₂)
    have h37 : b₂ = 37 := by
      have := congrArg Char.toNat h.1.symm
      rw [e₂] at this
      simpa using this
    subst h37
    exact absurd hu₂ (by decide)
  · obtain ⟨-, h1, h2, h3⟩ := h
    have hd : b₁ / 16 = b₂ / 16 :=
      hexDigitUpper_inj _ (by omega) _ (by omega) h1
    have hm : b₁ % 16 = b₂ % 16 :=
      hexDigitUpper_inj _ (by omega) _ (by omega) h2
    exact ⟨by omega, h3⟩

theorem encBytes_inj :
    ∀ {l₁ l₂ : List Nat}, (∀ b ∈ l₁, b < 256) → (∀ b ∈ l₂, b < 256) →
      encBytes l₁ = encBytes l₂ → l₁ = l₂ := by
  intro l₁
  induction l₁ with
  | nil =>
    intro l₂ _ _ h
    cases l₂ with
    | nil => rfl
    | cons d ds =>
      exfalso
      have h2 : ([] : List Char) = encByte d ++ encBytes ds := h
      exact encByte_ne_nil d (List.append_eq_nil.mp h2.symm).1
  | cons c cs ih =>
    intro l₂ hl₁ hl₂ h
    cases l₂ with
    | nil =>
      exfalso
      have h2 : encByte c ++ encBytes cs = ([] : List Char) := h
      exact encByte_ne_nil c (List.append_eq_nil.mp h2).1
    | cons d ds =>
      have h2 : encByte c ++ encBytes cs = encByte d ++ encBytes ds := h
      obtain ⟨rfl, h3⟩ := encByte_append_inj (hl₁ c (by simp)) (hl₂ d (by simp)) h2
      rw [ih (fun b hb => hl₁ b (by simp [hb])) (fun b hb => hl₂ b (by simp [hb])) h3]

theorem utf8Bytes_lt_256 {l : List Char} : ∀ b ∈ utf8Bytes l, b < 256 := by
  induction l with
  | nil => simp [utf8Bytes]
  | cons c cs ih =>
    intro b hb
    have h2 : b ∈ charUtf8 c ++ utf8Bytes cs := hb
    rcases List.mem_append.mp h2 with hc | hc
    · exact charUtf8_lt_256 c b hc
    · exact ih b hc

theorem encodeURIComponent_inj {s₁ s₂ : String}
    (h : encodeURIComponent s₁ = encodeURIComponent s₂) : s₁ = s₂ := by
  have hd : encBytes (utf8Bytes s₁.data) = encBytes (utf8Bytes s₂.data) :=
    congrArg String.data h
  have hu : utf8Bytes s₁.data = utf8Bytes s₂.data :=
    encBytes_inj utf8Bytes_lt_256 utf8Bytes_lt_256 hd
  have hdata : s₁.data = s₂.data := utf8Bytes_inj hu
  cases s₁
  cases s₂
  rw [show ({ data := _ } : String).data = _ from rfl] at hdata
  exact congrArg String.mk hdata

theorem encBytes_no_slash : ∀ {l : List Nat}, (∀ b ∈ l, b < 256) → '/' ∉ encBytes l := by
  intro l
  induction l with
  | nil => simp [encBytes]
  | cons c cs ih =>
    intro hl hmem
    have h2 : '/' ∈ encByte c ++ encBytes cs := hmem
    rcases List.mem_append.mp h2 with hc | hc
    · have hb : c < 256 := hl c (by simp)
      unfold encByte at hc
      by_cases hu : uriUnreserved c = true
      · simp only [hu, if_true, List.mem_singleton] at hc
        have he := charOfNat_toNat_ascii c (uriUnreserved_lt hu)
        rw [← hc] at he
        have h47 : c = 47 := by simpa using he.symm
        subst h47
        exact absurd hu (by decide)
      · simp only [hu, Bool.false_eq_true, if_false, List.mem_cons,
          List.not_mem_nil, or_false] at hc
        rcases hc with hc | hc | hc
        · exact absurd hc.symm (by decide)
        · exact hexDigitUpper_ne_slash (c / 16) (by omega) hc.symm
        · exact hexDigitUpper_ne_slash (c % 16) (by omega) hc.symm
    · exact ih (fun b hb => hl b (by simp [hb])) hc

theorem encodeURIComponent_no_slash (s : String) : '/' ∉ (encodeURIComponent s).data :=
  encBytes_no_slash utf8Bytes_lt_256

theorem append_slash_cancel :
    ∀ {a₁ a₂ b₁ b₂ : List Char}, '/' ∉ a₁ → '/' ∉ a₂ →
      a₁ ++ '/' :: b₁ = a₂ ++ '/' :: b₂ → a₁ = a₂ ∧ b₁ = b₂ := by
  intro a₁
  induction a₁ with
  | nil =>
    intro a₂ b₁ b₂ _ h₂ h
    cases a₂ with
    | nil => simpa using h
    | cons y ys =>
      exfalso
      simp only [List.nil_append, List.cons_append, List.cons.injEq] at h
      exact h₂ (by simp [h.1.symm])
  | cons x xs ih =>
    intro a₂ b₁ b₂ h₁ h₂ h
    cases a₂ with
    | nil =>
      exfalso
      simp only [List.nil_append, List.cons_append, List.cons.injEq] at h
      exact h₁ (by simp [h.1])
    | cons y ys =>
      simp only [List.cons_append, List.cons.injEq] at h
      obtain ⟨rfl, h3⟩ := h
      obtain ⟨rfl, rfl⟩ := ih (fun hm => h₁ (by simp [hm])) (fun hm => h₂ (by simp [hm])) h3
      exact ⟨rfl, rfl⟩

/-- C9: the composite replay-cache key is injective on (service, nonce)
pairs: because each component is URL-encoded (and the encoding never emits
a slash) before being joined with the slash separator, two pairs producing
the same key are equal — a nonce stored for one tenant can never collide
with another tenant's key. -/
theorem nonceToken_injective (s₁ n₁ s₂ n₂ : String)
    (h : nonceToken s₁ n₁ = nonceToken s₂ n₂) : s₁ = s₂ ∧ n₁ = n₂ := by
  have hdata : (encodeURIComponent s₁).data ++ '/' :: (encodeURIComponent n₁).data =
      (encodeURIComponent s₂).data ++ '/' :: (encodeURIComponent n₂).data := by
    have h0 := congrArg String.data h
    unfold nonceToken at h0
    simpa [String.data_append] using h0
  obtain ⟨he₁, he₂⟩ := append_slash_cancel
    (encodeURIComponent_no_slash s₁) (encodeURIComponent_no_slash s₂) hdata
  constructor
  · exact encodeURIComponent_inj (by
      cases hc₁ : encodeURIComponent s₁
      cases hc₂ : encodeURIComponent s₂
      rw [hc₁, hc₂] at he₁
      exact congrArg String.mk (by simpa using he₁))
  · exact encodeURIComponent_inj (by
      cases hc₁ : encodeURIComponent n₁
      cases hc₂ : encodeURIComponent n₂
      rw [hc₁, hc₂] at he₂
      exact congrArg String.mk (by simpa using he₂))

theorem nonceToken_injective_witness :
    "merchant-1" = "merchant-1" ∧ "N0ABCDEF01234567" = "N0ABCDEF01234567" :=
  nonceToken_injective "merchant-1" "N0ABCDEF01234567" "merchant-1" "N0ABCDEF01234567" rfl
